import Mathlib

/-!
Verification development for the DCSA bulk CSV ingestion pipeline.

The repository's executable artefacts are:
* the dynamic staff-allocation and menu-cell parsers given as Python in
  src/claude-code-development.md (parse_dynamic_staff_allocation,
  parse_menu_category), embedded below over explicit cell values;
* the Vue/TypeScript client: src/frontend-vite/src/services/bulkUploadApi.ts
  (and its updated variant src/unnamed/part_001) and
  src/frontend-vite/src/components/BulkLoaderPreviewModal.vue.

The FastAPI preview/submit orchestrators are not present in the repository;
where a claim depends on them they are modelled from the specification and
marked as such.
-/

/-- A pandas cell value as seen by the row parsers: a number, a string, or
a missing value (Python None / NaN, which `pd.notna` rejects; an absent
column key also surfaces as this through `row.get`). -/
inductive CellVal
  | num (n : Int)
  | str (s : String)
  | null
deriving DecidableEq

/-- A raw data row: an ordered association of column name to cell value,
as in one line of the uploaded CSV after pandas parsing. -/
abbrev Row := List (String × CellVal)

/-- Reading `row.get(col)` of a pandas Series: the stored value, or None when the
label is absent.  A stored Python None and an absent label are both
`CellVal.null`, exactly as both read back as None in the source. -/
def rowGetVal (row : Row) (c : String) : CellVal :=
  match List.find? (fun p => p.1 == c) row with
  | some p => p.2
  | none => CellVal.null

/-- Boolean test that a pattern is an initial segment of a list
(Python `str.startswith`, on explicit character lists). -/
def leadsList : List Char → List Char → Bool
  | [], _ => true
  | _ :: _, [] => false
  | p :: ps, c :: cs => p == c && leadsList ps cs

/-- Boolean test that a pattern is a final segment of a list
(Python `str.endswith`). -/
def tailEnd (pat : List Char) : List Char → Bool
  | [] => pat == []
  | c :: rest => pat == (c :: rest) || tailEnd pat rest

/-- Boolean test that a pattern occurs contiguously somewhere in a list
(Python `in` on strings). -/
def occursIn (pat : List Char) : List Char → Bool
  | [] => leadsList pat []
  | c :: rest => leadsList pat (c :: rest) || occursIn pat rest

/-- The characters of the leading marker "sa_" deleted by
`col_total.replace('sa_', '')`. -/
def saChars : List Char := ['s', 'a', '_']

/-- The characters of the suffix "_total" deleted by
`.replace('_total', '')`. -/
def totalChars : List Char := ['_', 't', 'o', 't', 'a', 'l']

/-- Python `s.replace('sa_', '')`: delete every occurrence of "sa_",
scanning left to right, non-overlapping. -/
def delSa : List Char → List Char
  | c :: d :: e :: rest =>
    if c = 's' ∧ d = 'a' ∧ e = '_' then delSa rest
    else c :: delSa (d :: e :: rest)
  | l => l

/-- Python `s.replace('_total', '')`: delete every occurrence of "_total",
scanning left to right, non-overlapping. -/
def delTotal : List Char → List Char
  | c1 :: c2 :: c3 :: c4 :: c5 :: c6 :: rest =>
    if c1 = '_' ∧ c2 = 't' ∧ c3 = 'o' ∧ c4 = 't' ∧ c5 = 'a' ∧ c6 = 'l' then delTotal rest
    else c1 :: delTotal (c2 :: c3 :: c4 :: c5 :: c6 :: rest)
  | l => l

/-- Extraction `role_name = col_total.replace('sa_', '').replace('_total', '')` from
parse_dynamic_staff_allocation (src/claude-code-development.md). -/
def roleName (col : String) : String :=
  String.mk (delTotal (delSa col.toList))

/-- Sibling name built by the source for the serving type, sa_ plus role
plus _type. -/
def colTypeName (role : String) : String := "sa_" ++ role ++ "_type"

/-- Sibling name built by the source for the drop location, sa_ plus role
plus _drop_loc. -/
def colLocName (role : String) : String := "sa_" ++ role ++ "_drop_loc"

/-- Test `pd.notna(total_val) and total_val > 0` from the source, on a cell value:
true exactly for a present numeric value strictly above zero. -/
def totalPos : CellVal → Bool
  | CellVal.num n => decide (0 < n)
  | _ => false

/-- Coercion `int(total_val)` on a cell already known numeric; other shapes give 0
(they are never reached under `totalPos`). -/
def cellInt : CellVal → Int
  | CellVal.num n => n
  | _ => 0

/-- The value stored per role by parse_dynamic_staff_allocation:
`{"total": int(total_val), "serving_type": row.get(col_type),
"drop_off_location": row.get(col_loc_actual)}`. -/
structure AllocationRecord where
  total : Int
  serving_type : CellVal
  drop_off_location : CellVal
deriving DecidableEq

/-- Membership of a key in the allocation dict. -/
def keysHave (d : List (String × AllocationRecord)) (r : String) : Bool :=
  d.any (fun p => p.1 == r)

/-- Python dict assignment `allocation[role_name] = value`: overwrite in
place when the key exists, append otherwise. -/
def dictInsert (d : List (String × AllocationRecord)) (k : String)
    (v : AllocationRecord) : List (String × AllocationRecord) :=
  if d.any (fun p => p.1 == k) then
    d.map (fun p => if p.1 == k then (k, v) else p)
  else d ++ [(k, v)]

/-- One iteration of the `for col_total in potential_roles` loop of
parse_dynamic_staff_allocation: extract the role name, read the total,
and when it is present and positive store the record built from the
dynamically named sibling columns (reading them with `row.get`, which
yields null when the column is absent). -/
def allocStep (row : Row) (alloc : List (String × AllocationRecord))
    (colTotal : String) : List (String × AllocationRecord) :=
  let role := roleName colTotal
  let totalVal := rowGetVal row colTotal
  if totalPos totalVal then
    dictInsert alloc role
      { total := cellInt totalVal
      , serving_type := rowGetVal row (colTypeName role)
      , drop_off_location := rowGetVal row (colLocName role) }
  else alloc

/-- Comprehension `[col for col in all_columns if col.startswith('sa_') and
col.endswith('_total')]` from the source. -/
def potentialRoles (allColumns : List String) : List String :=
  allColumns.filter (fun c => leadsList saChars c.toList && tailEnd totalChars c.toList)

/-- parse_dynamic_staff_allocation from src/claude-code-development.md
(lines 202-231): the allocation dict built for one row, keyed by role
name, in loop order. -/
def parse_dynamic_staff_allocation (row : Row) (allColumns : List String) :
    List (String × AllocationRecord) :=
  (potentialRoles allColumns).foldl (allocStep row) []

/-- One parsed menu entry, `{"menu": name.strip(), "total_qty":
int(qty.strip())}` from parse_menu_category. -/
structure MenuItem where
  menu : String
  total_qty : Int
deriving DecidableEq

/-- ASCII whitespace stripped by Python `str.strip` on the data at hand. -/
def isSpaceChar (c : Char) : Bool :=
  c == ' ' || c == '\t' || c == '\n' || c == '\r'

/-- Python `str.strip()`: drop whitespace from both ends. -/
def pyStrip (l : List Char) : List Char :=
  ((l.dropWhile isSpaceChar).reverse.dropWhile isSpaceChar).reverse

/-- Decimal digit run to a number, rejecting the empty run and any
non-digit (Python `int` raising ValueError is `none`). -/
def digitsToNat (ds : List Char) : Option Nat :=
  if ds = [] then none
  else if ds.all Char.isDigit then
    some (ds.foldl (fun a c => a * 10 + (c.toNat - 48)) 0)
  else none

/-- Python `int(s)` on an already stripped string: an optional sign
followed by decimal digits; anything else raises (`none`).  (Exotic
accepted forms such as underscore separators are outside this model.) -/
def pyInt (l : List Char) : Option Int :=
  match l with
  | '+' :: ds => (digitsToNat ds).map Int.ofNat
  | '-' :: ds => (digitsToNat ds).map (fun n => -(Int.ofNat n))
  | ds => (digitsToNat ds).map Int.ofNat

/-- Python `s.split(sep)` for a one-character separator: the list of
(possibly empty) chunks between separators; the empty string gives one
empty chunk. -/
def splitOnChar (sep : Char) : List Char → List (List Char)
  | [] => [[]]
  | c :: rest =>
    if c == sep then [] :: splitOnChar sep rest
    else
      match splitOnChar sep rest with
      | h :: t => (c :: h) :: t
      | [] => [[c]]

/-- The body of the `for entry in entries` loop of parse_menu_category.
An accumulator of `none` models an exception already raised.  An entry
without '=' is passed over silently; with '=' the entry is split on every
'=': exactly two parts with an integral quantity append one item, while a
non-integral quantity (ValueError in `int`) or three or more parts
(unpacking error in `name, qty = entry.split('=')`) raise. -/
def menuStep (acc : Option (List MenuItem)) (entry : List Char) :
    Option (List MenuItem) :=
  match acc with
  | none => none
  | some items =>
    if entry.any (fun ch => ch == '=') then
      match splitOnChar '=' entry with
      | [name, qty] =>
        match pyInt (pyStrip qty) with
        | some n => some (items ++ [MenuItem.mk (String.mk (pyStrip name)) n])
        | none => none
      | _ => none
    else some items

/-- parse_menu_category from src/claude-code-development.md (lines
240-254).  `none` as input models a non-string cell (NaN); `none` as
output models an uncaught exception escaping the call. -/
def parse_menu_category (cell_value : Option String) : Option (List MenuItem) :=
  match cell_value with
  | none => some []
  | some s =>
    if s = "" then some []
    else (splitOnChar ';' s.toList).foldl menuStep (some [])

/-- Outcome of one menu entry: `none` = the entry raises, `some none` =
silently skipped, `some (some item)` = parsed.  Reformulation target for
the amended C2. -/
def parseEntry (entry : List Char) : Option (Option MenuItem) :=
  if entry.any (fun ch => ch == '=') then
    match splitOnChar '=' entry with
    | [name, qty] =>
      match pyInt (pyStrip qty) with
      | some n => some (some (MenuItem.mk (String.mk (pyStrip name)) n))
      | none => none
    | _ => none
  else some none

/-- Sequencing of entry outcomes: the first raising entry aborts the cell,
skipped entries contribute nothing, parsed items are kept in order. -/
def parseEntries : List (List Char) → Option (List MenuItem)
  | [] => some []
  | e :: es =>
    match parseEntry e with
    | none => none
    | some r =>
      match parseEntries es with
      | none => none
      | some rest => some (r.toList ++ rest)

/-- An entry that parses cleanly: exactly one '=' and an integral
quantity after stripping. -/
def goodEntry (e : List Char) : Bool :=
  match splitOnChar '=' e with
  | [_, q] => (pyInt (pyStrip q)).isSome
  | _ => false

/-- The item a clean entry parses to. -/
def entryItem (e : List Char) : MenuItem :=
  match splitOnChar '=' e with
  | [n, q] => MenuItem.mk (String.mk (pyStrip n)) ((pyInt (pyStrip q)).getD 0)
  | _ => MenuItem.mk "" 0

/-- Row status of a previewed order, the `'ok' | 'warning' | 'error'`
union of BulkUploadPreviewItem.status (bulkUploadApi.ts). -/
inductive RowStatus
  | ok
  | warning
  | error
deriving DecidableEq

/-- StaffAllocationItem from bulkUploadApi.ts. -/
structure StaffAllocationItem where
  total : Int
  serving_type : String
  drop_off_location : String
deriving DecidableEq

/-- The `menu_details` object of BulkUploadPreviewItem from
bulkUploadApi.ts, with its three optional category lists. -/
structure MenuDetails where
  snack : Option (List MenuItem)
  beverages : Option (List MenuItem)
  heavy_meal : Option (List MenuItem)
deriving DecidableEq

/-- BulkUploadPreviewItem from bulkUploadApi.ts. -/
structure BulkUploadPreviewItem where
  row_number : Nat
  institution_name : String
  order_date : String
  order_type : String
  total_portion : Int
  dropping_location_food : String
  staff_allocation : List (String × StaffAllocationItem)
  menu_details : Option MenuDetails
  special_notes : Option String
  status : RowStatus
  error_message : Option String
deriving DecidableEq

/-- BulkUploadPreviewResponse from
src/frontend-vite/src/services/bulkUploadApi.ts: success, csv_format,
parsed_rows, preview_data, validation_errors, validation_warnings,
total_portion — and no further field. -/
structure BulkUploadPreviewResponse where
  success : Bool
  csv_format : String
  parsed_rows : Nat
  preview_data : List BulkUploadPreviewItem
  validation_errors : List String
  validation_warnings : List String
  total_portion : Int
deriving DecidableEq

/-- The field names of BulkUploadPreviewResponse in
src/frontend-vite/src/services/bulkUploadApi.ts, in declaration order. -/
def bulkUploadPreviewResponseFields : List String :=
  ["success", "csv_format", "parsed_rows", "preview_data",
   "validation_errors", "validation_warnings", "total_portion"]

/-- The field names of BulkUploadPreviewResponse in src/unnamed/part_001
(the updated service variant), which appends `orders`. -/
def bulkUploadPreviewResponseFieldsV2 : List String :=
  bulkUploadPreviewResponseFields ++ ["orders"]

/-- BulkUploadSubmitRequest from
src/frontend-vite/src/services/bulkUploadApi.ts. -/
structure BulkUploadSubmitRequest where
  csv_content : String
  confirmed : Bool
deriving DecidableEq

/-- The field names of BulkUploadSubmitRequest in
src/frontend-vite/src/services/bulkUploadApi.ts. -/
def bulkUploadSubmitRequestFields : List String := ["csv_content", "confirmed"]

/-- The JSON body built by `submitBulkUpload(csvContent)` in
src/frontend-vite/src/services/bulkUploadApi.ts:
`{ csv_content: csvContent, confirmed: true }`. -/
def submitBulkUploadBody (csvContent : String) : BulkUploadSubmitRequest :=
  { csv_content := csvContent, confirmed := true }

/-- Allocation record of a parsed order as carried by the spec-level
CandidateOrder: the per-role dict value of the backend parser. -/
structure CandidateOrder where
  row_number : Nat
  institution_name : String
  institution_id : Option Nat
  order_date : String
  declared_total_portion : Int
  drop_location : String
  allocations : List (String × AllocationRecord)
  menu : List (String × List MenuItem)
  status : RowStatus
  messages : List String
deriving DecidableEq

/-- BulkUploadSubmitRequest of src/unnamed/part_001: the canonical order
objects from the preview plus the confirmation flag. -/
structure BulkUploadSubmitRequestV2 where
  orders : List CandidateOrder
  confirmed : Bool
deriving DecidableEq

/-- The field names of BulkUploadSubmitRequest in src/unnamed/part_001. -/
def bulkUploadSubmitRequestFieldsV2 : List String := ["orders", "confirmed"]

/-- The JSON body built by `submitBulkUpload(orders)` in
src/unnamed/part_001: `{ orders: orders, confirmed: true }`. -/
def submitBulkUploadBodyV2 (orders : List CandidateOrder) : BulkUploadSubmitRequestV2 :=
  { orders := orders, confirmed := true }

/-- Computed `hasErrors` of BulkLoaderPreviewModal.vue (lines 300-302):
`previewData && previewData.validation_errors.length > 0`. -/
def hasErrors (previewData : Option BulkUploadPreviewResponse) : Bool :=
  match previewData with
  | some pd => decide (0 < pd.validation_errors.length)
  | none => false

/-- The `:disabled="hasErrors || isSubmitting"` binding of the Submit
button in BulkLoaderPreviewModal.vue (line 137). -/
def submitDisabled (previewData : Option BulkUploadPreviewResponse)
    (isSubmitting : Bool) : Bool :=
  hasErrors previewData || isSubmitting

/-- Modelled from the spec: the backend aggregation (absent from src/)
that fills validation_errors of the preview response — each row of
status error contributes its message, prefixed with its row number, as
in the sample response of src/claude-code-development.md lines 384-419. -/
def aggregateValidationErrors (items : List BulkUploadPreviewItem) : List String :=
  (items.filter (fun it => it.status == RowStatus.error)).map
    (fun it => "Row " ++ toString it.row_number ++ ": " ++ it.error_message.getD "error")

/-- Spec-level BatchResult (spec section 3): parsed row count, the
candidate orders, aggregated messages and the portion sum. -/
structure BatchResult where
  parsed_row_count : Nat
  orders : List CandidateOrder
  validation_errors : List String
  validation_warnings : List String
  total_portion_sum : Int
deriving DecidableEq

/-- Outcome of one Preview call: a whole-file failure (unreadable or
empty file; missing mandatory columns) or a BatchResult. -/
inductive PreviewOutcome
  | fileError
  | schemaError
  | ok (result : BatchResult)
deriving DecidableEq

/-- The mandatory metadata columns every known layout must supply
(institution name, order date, total portions). -/
def mandatoryColumns : List String :=
  ["institution_name", "order_date", "total_portions"]

/-- Presence of every mandatory metadata column in the header. -/
def matchSchemaOk (header : List String) : Bool :=
  mandatoryColumns.all (fun m => header.any (fun h => h == m))

/-- Transform each raw row with its 1-based row number, in file order. -/
def transformAll (transform : Nat → Row → CandidateOrder) :
    Nat → List Row → List CandidateOrder
  | _, [] => []
  | i, r :: rs => transform i r :: transformAll transform (i + 1) rs

/-- Errors aggregated over a batch: the messages of the error rows. -/
def batchErrors (orders : List CandidateOrder) : List String :=
  ((orders.filter (fun o => o.status == RowStatus.error)).map
    (fun o => o.messages)).flatten

/-- Warnings aggregated over a batch: the messages of the warning rows. -/
def batchWarnings (orders : List CandidateOrder) : List String :=
  ((orders.filter (fun o => o.status == RowStatus.warning)).map
    (fun o => o.messages)).flatten

/-- Declared portion total over a batch. -/
def batchTotal (orders : List CandidateOrder) : Int :=
  orders.foldl (fun acc o => acc + o.declared_total_portion) 0

/-- Modelled from the spec: the Preview orchestrator (spec section 4.4;
the FastAPI preview endpoint is absent from src/, only described in
src/claude-code-development.md sections 5-6).  Input `none` is an
unreadable or empty file.  With a readable file the mandatory columns
are checked, then every data row is transformed by the total row
transformer into exactly one CandidateOrder; the storage state `db` is
threaded through untouched — preview persists nothing. -/
def previewOrchestrator (transform : Nat → Row → CandidateOrder)
    (file : Option (List String × List Row))
    (db : List (Nat × CandidateOrder)) :
    List (Nat × CandidateOrder) × PreviewOutcome :=
  match file with
  | none => (db, PreviewOutcome.fileError)
  | some (header, rows) =>
    if matchSchemaOk header then
      let orders := transformAll transform 1 rows
      (db, PreviewOutcome.ok
        { parsed_row_count := rows.length
        , orders := orders
        , validation_errors := batchErrors orders
        , validation_warnings := batchWarnings orders
        , total_portion_sum := batchTotal orders })
    else (db, PreviewOutcome.schemaError)

/-- Outcome of one Submit call. -/
inductive SubmitOutcome
  | rejected
  | txRolledBack
  | success (ids : List Nat)
deriving DecidableEq

/-- Sequential insertion inside one transaction: each order is handed to
the storage collaborator in turn; the first failure aborts the whole
sequence. -/
def insertSeq (tryInsert : CandidateOrder → Option Nat) :
    List CandidateOrder → Option (List (Nat × CandidateOrder))
  | [] => some []
  | o :: os =>
    match tryInsert o with
    | none => none
    | some i =>
      match insertSeq tryInsert os with
      | none => none
      | some rest => some ((i, o) :: rest)

/-- Modelled from the spec: the Submit orchestrator (spec section 4.5;
the FastAPI submit endpoint is absent from src/, only described in
src/claude-code-development.md section 7).  It re-validates every
supplied order; any failure rejects the whole submission with zero
inserts.  Otherwise all orders are inserted inside one transaction:
on any single insert failure the database is left exactly as it was
(rollback), on success it is extended by one record per order. -/
def submitOrchestrator (validate : CandidateOrder → Bool)
    (tryInsert : CandidateOrder → Option Nat)
    (db : List (Nat × CandidateOrder)) (orders : List CandidateOrder) :
    List (Nat × CandidateOrder) × SubmitOutcome :=
  if orders.all validate then
    match insertSeq tryInsert orders with
    | some inserted => (db ++ inserted, SubmitOutcome.success (inserted.map Prod.fst))
    | none => (db, SubmitOutcome.txRolledBack)
  else (db, SubmitOutcome.rejected)

/-- Key membership in the empty dict. -/
theorem keysHave_nil (r : String) : keysHave [] r = false := rfl

/-- Key membership expressed as an existential over the entries. -/
theorem keysHave_iff (d : List (String × AllocationRecord)) (r : String) :
    keysHave d r = true ↔ ∃ p ∈ d, p.1 = r := by
  simp [keysHave, List.any_eq_true, beq_iff_eq]

/-- Key membership after a dict assignment: the old keys plus the new one. -/
theorem keysHave_dictInsert (d : List (String × AllocationRecord)) (k : String)
    (v : AllocationRecord) (r : String) :
    keysHave (dictInsert d k v) r = true ↔ (keysHave d r = true ∨ k = r) := by
  unfold dictInsert
  by_cases h : d.any (fun p => p.1 == k) = true
  · rw [if_pos h]
    rw [List.any_eq_true] at h
    obtain ⟨p0, hp0, hk0⟩ := h
    rw [beq_iff_eq] at hk0
    rw [keysHave_iff, keysHave_iff]
    constructor
    · rintro ⟨q, hq, hq1⟩
      rw [List.mem_map] at hq
      obtain ⟨p, hp, rfl⟩ := hq
      by_cases hpk : p.1 == k
      · rw [if_pos hpk] at hq1
        exact Or.inr hq1
      · rw [if_neg hpk] at hq1
        exact Or.inl ⟨p, hp, hq1⟩
    · rintro (⟨p, hp, hp1⟩ | rfl)
      · refine ⟨if p.1 == k then (k, v) else p, List.mem_map_of_mem _ hp, ?_⟩
        by_cases hpk : p.1 == k
        · rw [if_pos hpk]
          rw [beq_iff_eq] at hpk
          simpa [← hpk] using hp1
        · rw [if_neg hpk]
          exact hp1
      · refine ⟨(k, v), ?_, rfl⟩
        have hm := List.mem_map_of_mem (fun p => if p.1 == k then (k, v) else p) hp0
        simp only [hk0, beq_self_eq_true, if_true] at hm
        exact hm
  · rw [if_neg h]
    rw [keysHave_iff, keysHave_iff]
    constructor
    · rintro ⟨p, hp, hp1⟩
      rcases List.mem_append.mp hp with hp | hp
      · exact Or.inl ⟨p, hp, hp1⟩
      · rw [List.mem_singleton] at hp
        subst hp
        exact Or.inr hp1
    · rintro (⟨p, hp, hp1⟩ | rfl)
      · exact ⟨p, List.mem_append_left _ hp, hp1⟩
      · exact ⟨(k, v), List.mem_append_right _ (List.mem_singleton.mpr rfl), rfl⟩

/-- Key membership after folding the allocation loop body over a list of
total-columns, for an arbitrary starting dict. -/
theorem keysHave_foldl (row : Row) (r : String) :
    ∀ (cs : List String) (acc : List (String × AllocationRecord)),
      keysHave (cs.foldl (allocStep row) acc) r = true ↔
        (keysHave acc r = true ∨
          ∃ c ∈ cs, roleName c = r ∧ totalPos (rowGetVal row c) = true) := by
  intro cs
  induction cs with
  | nil => simp
  | cons c cs ih =>
    intro acc
    rw [List.foldl_cons, ih]
    by_cases ht : totalPos (rowGetVal row c) = true
    · have hstep : allocStep row acc c =
          dictInsert acc (roleName c)
            { total := cellInt (rowGetVal row c)
            , serving_type := rowGetVal row (colTypeName (roleName c))
            , drop_off_location := rowGetVal row (colLocName (roleName c)) } := by
        unfold allocStep
        rw [if_pos ht]
      rw [hstep, keysHave_dictInsert]
      simp only [List.mem_cons, ht]
      constructor
      · rintro ((h | h) | ⟨c', hc', hr', ht'⟩)
        · exact Or.inl h
        · exact Or.inr ⟨c, Or.inl rfl, h, ht⟩
        · exact Or.inr ⟨c', Or.inr hc', hr', ht'⟩
      · rintro (h | ⟨c', (rfl | hc'), hr', ht'⟩)
        · exact Or.inl (Or.inl h)
        · exact Or.inl (Or.inr hr')
        · exact Or.inr ⟨c', hc', hr', ht'⟩
    · have hstep : allocStep row acc c = acc := by
        unfold allocStep
        rw [if_neg ht]
      rw [hstep]
      simp only [List.mem_cons]
      constructor
      · rintro (h | ⟨c', hc', hr', ht'⟩)
        · exact Or.inl h
        · exact Or.inr ⟨c', Or.inr hc', hr', ht'⟩
      · rintro (h | ⟨c', (rfl | hc'), hr', ht'⟩)
        · exact Or.inl h
        · exact absurd ht' ht
        · exact Or.inr ⟨c', hc', hr', ht'⟩

/-- The invariant each stored allocation record satisfies: positive total,
and serving type and drop location read off the row at the dynamically
built sibling column names (null when those columns are absent). -/
def AllocInv (row : Row) (p : String × AllocationRecord) : Prop :=
  0 < p.2.total ∧
    p.2.serving_type = rowGetVal row (colTypeName p.1) ∧
    p.2.drop_off_location = rowGetVal row (colLocName p.1)

/-- Every element of a dict assignment comes from the old dict or is the
assigned pair. -/
theorem mem_dictInsert (d : List (String × AllocationRecord)) (k : String)
    (v : AllocationRecord) (p : String × AllocationRecord)
    (hp : p ∈ dictInsert d k v) : p ∈ d ∨ p = (k, v) := by
  unfold dictInsert at hp
  by_cases h : d.any (fun q => q.1 == k) = true
  · rw [if_pos h, List.mem_map] at hp
    obtain ⟨q, hq, hqe⟩ := hp
    by_cases hqk : q.1 == k
    · rw [if_pos hqk] at hqe
      exact Or.inr hqe.symm
    · rw [if_neg hqk] at hqe
      exact Or.inl (hqe ▸ hq)
  · rw [if_neg h, List.mem_append, List.mem_singleton] at hp
    exact hp

/-- The allocation loop preserves the per-record invariant. -/
theorem allocInv_foldl (row : Row) :
    ∀ (cs : List String) (acc : List (String × AllocationRecord)),
      (∀ p ∈ acc, AllocInv row p) →
      ∀ p ∈ cs.foldl (allocStep row) acc, AllocInv row p := by
  intro cs
  induction cs with
  | nil => intro acc hacc; simpa using hacc
  | cons c cs ih =>
    intro acc hacc
    rw [List.foldl_cons]
    refine ih _ ?_
    intro p hp
    unfold allocStep at hp
    by_cases ht : totalPos (rowGetVal row c) = true
    · rw [if_pos ht] at hp
      rcases mem_dictInsert _ _ _ _ hp with h | rfl
      · exact hacc _ h
      · refine ⟨?_, rfl, rfl⟩
        cases hv : rowGetVal row c with
        | num n =>
          rw [hv] at ht
          simpa [totalPos, hv, cellInt] using ht
        | str s => rw [hv] at ht; simp [totalPos] at ht
        | null => rw [hv] at ht; simp [totalPos] at ht
    · rw [if_neg ht] at hp
      exact hacc _ hp

/-- C1 (corrected): in parse_dynamic_staff_allocation a group discovered
from a header `sa_<group>_total` is included exactly when its total cell
is present and strictly positive — the existence of the sibling columns
`sa_<group>_type` / `sa_<group>_drop_loc` plays no part in the decision,
no warning is produced, and a missing sibling merely surfaces as a null
serving type or drop location (second conjunct), leaving every other
group unaffected. -/
theorem c1_amended :
    (∀ (row : Row) (cols : List String) (r : String),
      keysHave (parse_dynamic_staff_allocation row cols) r = true ↔
        ∃ c ∈ cols, leadsList saChars c.toList = true ∧
          tailEnd totalChars c.toList = true ∧
          roleName c = r ∧ totalPos (rowGetVal row c) = true) ∧
    (∀ (row : Row) (cols : List String) (p : String × AllocationRecord),
      p ∈ parse_dynamic_staff_allocation row cols →
        p.2.serving_type = rowGetVal row (colTypeName p.1) ∧
        p.2.drop_off_location = rowGetVal row (colLocName p.1)) := by
  constructor
  · intro row cols r
    unfold parse_dynamic_staff_allocation
    rw [keysHave_foldl]
    simp only [keysHave_nil, Bool.false_eq_true, false_or, potentialRoles,
      List.mem_filter, Bool.and_eq_true]
    constructor
    · rintro ⟨c, ⟨hc, hl, ht⟩, hr, hp⟩
      exact ⟨c, hc, hl, ht, hr, hp⟩
    · rintro ⟨c, hc, hl, ht, hr, hp⟩
      exact ⟨c, ⟨hc, hl, ht⟩, hr, hp⟩
  · intro row cols p hp
    have := allocInv_foldl row (potentialRoles cols) [] (by simp) p hp
    exact ⟨this.2.1, this.2.2⟩

/-- Witness for C1: on a header carrying `sa_y_total` and `sa_y_type`
but no `sa_y_drop_loc`, the stored record reads its fields off the row
at the dynamically built sibling names. -/
theorem c1_witness :
    (AllocationRecord.mk 3 (CellVal.str "Box") CellVal.null).serving_type =
        rowGetVal [("sa_y_total", CellVal.num 3), ("sa_y_type", CellVal.str "Box")]
          (colTypeName "y") ∧
      (AllocationRecord.mk 3 (CellVal.str "Box") CellVal.null).drop_off_location =
        rowGetVal [("sa_y_total", CellVal.num 3), ("sa_y_type", CellVal.str "Box")]
          (colLocName "y") :=
  c1_amended.2 [("sa_y_total", CellVal.num 3), ("sa_y_type", CellVal.str "Box")]
    ["sa_y_total", "sa_y_type"] ("y", AllocationRecord.mk 3 (CellVal.str "Box") CellVal.null)
    (by decide)

/-- Counterexample to C1 as stated: the header holds `sa_x_total` alone —
both siblings `sa_x_type` and `sa_x_drop_loc` are missing — yet the
group x is NOT dropped: it is included with total 5 and null serving
type and drop location, and the parser emits no warning of any kind
(its output carries nothing but the allocation dict). -/
theorem c1_counterexample :
    parse_dynamic_staff_allocation [("sa_x_total", CellVal.num 5)] ["sa_x_total"] =
      [("x", AllocationRecord.mk 5 CellVal.null CellVal.null)] := by decide

/-- C6: a discovered group whose `sa_<group>_total` cell is zero or
missing (absent column or empty cell, both of which `row.get` surfaces
as null) is excluded from the row's allocation — and no error can arise,
the parser being a total function — while every stored record carries an
integer total strictly greater than zero. -/
theorem c6_zero_or_absent_excluded :
    (∀ (row : Row) (cols : List String) (p : String × AllocationRecord),
      p ∈ parse_dynamic_staff_allocation row cols → 0 < p.2.total) ∧
    (∀ (row : Row) (cols : List String) (r : String),
      (∀ c ∈ cols, leadsList saChars c.toList = true →
        tailEnd totalChars c.toList = true → roleName c = r →
        (rowGetVal row c = CellVal.num 0 ∨ rowGetVal row c = CellVal.null)) →
      keysHave (parse_dynamic_staff_allocation row cols) r = false) := by
  constructor
  · intro row cols p hp
    exact (allocInv_foldl row (potentialRoles cols) [] (by simp) p hp).1
  · intro row cols r h
    by_contra hk
    rw [Bool.not_eq_false] at hk
    unfold parse_dynamic_staff_allocation at hk
    rw [keysHave_foldl] at hk
    rcases hk with hk | ⟨c, hc, hr, hp⟩
    · simp [keysHave_nil] at hk
    · rw [potentialRoles, List.mem_filter, Bool.and_eq_true] at hc
      rcases h c hc.1 hc.2.1 hc.2.2 hr with hv | hv <;>
        rw [hv] at hp <;> simp [totalPos] at hp

/-- Witness for C6: with `sa_z_total` at 0 and `sa_w_total` missing its
value, neither group enters the allocation, while `sa_y_total` at 3 is
stored with a positive total. -/
theorem c6_witness :
    (0 : Int) < (AllocationRecord.mk 3 (CellVal.str "Box") CellVal.null).total ∧
      keysHave
        (parse_dynamic_staff_allocation
          [("sa_z_total", CellVal.num 0), ("sa_w_total", CellVal.null)]
          ["sa_z_total", "sa_w_total"]) "z" = false :=
  ⟨c6_zero_or_absent_excluded.1
      [("sa_y_total", CellVal.num 3), ("sa_y_type", CellVal.str "Box")]
      ["sa_y_total"] ("y", AllocationRecord.mk 3 (CellVal.str "Box") CellVal.null)
      (by decide),
    c6_zero_or_absent_excluded.2
      [("sa_z_total", CellVal.num 0), ("sa_w_total", CellVal.null)]
      ["sa_z_total", "sa_w_total"] "z" (by decide)⟩

/-- Unfolding of the replace scanner for "sa_" at a three-deep cons. -/
theorem delSa_eq_cons3 (c d e : Char) (rest : List Char) :
    delSa (c :: d :: e :: rest) =
      if c = 's' ∧ d = 'a' ∧ e = '_' then delSa rest
      else c :: delSa (d :: e :: rest) := rfl

/-- Unfolding of the replace scanner for "_total" at a six-deep cons. -/
theorem delTotal_eq_cons6 (c1 c2 c3 c4 c5 c6 : Char) (rest : List Char) :
    delTotal (c1 :: c2 :: c3 :: c4 :: c5 :: c6 :: rest) =
      if c1 = '_' ∧ c2 = 't' ∧ c3 = 'o' ∧ c4 = 't' ∧ c5 = 'a' ∧ c6 = 'l' then delTotal rest
      else c1 :: delTotal (c2 :: c3 :: c4 :: c5 :: c6 :: rest) := rfl

/-- An occurrence test that fails on a list fails on its tail, and the
pattern is not an initial segment either. -/
theorem occursIn_cons_false {pat : List Char} {c : Char} {rest : List Char}
    (h : occursIn pat (c :: rest) = false) :
    leadsList pat (c :: rest) = false ∧ occursIn pat rest = false := by
  have he : occursIn pat (c :: rest) =
      (leadsList pat (c :: rest) || occursIn pat rest) := rfl
  rw [he, Bool.or_eq_false_iff] at h
  exact h

/-- A suffix test that fails on a list fails on its tail, and the list is
not the pattern itself. -/
theorem tailEnd_cons_false {pat : List Char} {c : Char} {rest : List Char}
    (h : tailEnd pat (c :: rest) = false) :
    (pat == c :: rest) = false ∧ tailEnd pat rest = false := by
  have he : tailEnd pat (c :: rest) = ((pat == c :: rest) || tailEnd pat rest) := rfl
  rw [he, Bool.or_eq_false_iff] at h
  exact h

/-- Scanning for "sa_" leaves `g ++ "_total"` unchanged when "sa_" does
not occur in `g` and `g` does not end in "sa" (the one way an occurrence
could straddle the boundary with the suffix). -/
theorem delSa_skip : ∀ g : List Char,
    occursIn saChars g = false → tailEnd ['s', 'a'] g = false →
    delSa (g ++ totalChars) = g ++ totalChars := by
  intro g
  induction g with
  | nil => intro _ _; decide
  | cons c g' ih =>
    intro h1 h3
    obtain ⟨hlead, h1'⟩ := occursIn_cons_false h1
    obtain ⟨hne, h3'⟩ := tailEnd_cons_false h3
    match g' with
    | [] =>
      show delSa (c :: '_' :: 't' :: ['o', 't', 'a', 'l']) = c :: totalChars
      rw [delSa_eq_cons3, if_neg (fun h => absurd h.2.1 (by decide))]
      have : delSa ('_' :: 't' :: ['o', 't', 'a', 'l']) = totalChars := by decide
      rw [this]
    | [d] =>
      show delSa (c :: d :: '_' :: 't' :: ['o', 't', 'a', 'l']) = c :: d :: totalChars
      rw [delSa_eq_cons3]
      rw [if_neg]
      · have hrest : delSa (d :: '_' :: 't' :: ['o', 't', 'a', 'l']) = d :: totalChars := by
          have := ih h1' h3'
          simpa [totalChars] using this
        rw [hrest]
      · rintro ⟨rfl, rfl, -⟩
        simp at hne
    | d :: e :: g'' =>
      show delSa (c :: d :: e :: (g'' ++ totalChars)) = c :: d :: e :: (g'' ++ totalChars)
      rw [delSa_eq_cons3]
      rw [if_neg]
      · have hrest := ih h1' h3'
        simpa [List.cons_append] using hrest
      · rintro ⟨rfl, rfl, rfl⟩
        simp [leadsList, saChars] at hlead

/-- Scanning for "_total" over `g ++ "_total"` removes exactly the final
occurrence when "_total" does not occur in `g`; no occurrence can
straddle the boundary because "_total" does not overlap itself. -/
theorem delTotal_strip : ∀ g : List Char,
    occursIn totalChars g = false →
    delTotal (g ++ totalChars) = g := by
  intro g
  induction g with
  | nil => intro _; decide
  | cons c g' ih =>
    intro h2
    obtain ⟨hlead, h2'⟩ := occursIn_cons_false h2
    match g' with
    | [] =>
      show delTotal (c :: '_' :: 't' :: 'o' :: 't' :: 'a' :: ['l']) = [c]
      rw [delTotal_eq_cons6, if_neg (fun h => absurd h.2.1 (by decide))]
      have : delTotal ('_' :: 't' :: 'o' :: 't' :: 'a' :: ['l']) = [] := by decide
      rw [this]
    | [d] =>
      show delTotal (c :: d :: '_' :: 't' :: 'o' :: 't' :: 'a' :: ['l']) = [c, d]
      rw [delTotal_eq_cons6, if_neg (fun h => absurd h.2.2.1 (by decide))]
      have := ih h2'
      simpa [totalChars] using this
    | [d, e] =>
      show delTotal (c :: d :: e :: '_' :: 't' :: 'o' :: 't' :: 'a' :: ['l']) = [c, d, e]
      rw [delTotal_eq_cons6, if_neg (fun h => absurd h.2.2.2.1 (by decide))]
      have := ih h2'
      simpa [totalChars] using this
    | [d, e, f] =>
      show delTotal (c :: d :: e :: f :: '_' :: 't' :: 'o' :: 't' :: 'a' :: ['l']) =
        [c, d, e, f]
      rw [delTotal_eq_cons6, if_neg (fun h => absurd h.2.2.2.2.1 (by decide))]
      have := ih h2'
      simpa [totalChars] using this
    | [d, e, f, k] =>
      show delTotal (c :: d :: e :: f :: k :: '_' :: 't' :: 'o' :: 't' :: 'a' :: ['l']) =
        [c, d, e, f, k]
      rw [delTotal_eq_cons6, if_neg (fun h => absurd h.2.2.2.2.2 (by decide))]
      have := ih h2'
      simpa [totalChars] using this
    | d :: e :: f :: k :: m :: g'' =>
      show delTotal (c :: d :: e :: f :: k :: m :: (g'' ++ totalChars)) =
        c :: d :: e :: f :: k :: m :: g''
      rw [delTotal_eq_cons6]
      rw [if_neg]
      · have hrest := ih h2'
        simpa [List.cons_append] using hrest
      · rintro ⟨rfl, rfl, rfl, rfl, rfl, rfl⟩
        simp [leadsList, totalChars] at hlead

/-- C10 (corrected): for a header `sa_<g>_total`, when the string `<g>`
contains neither "sa_" nor "_total" as a substring AND does not end in
"sa" (the extra condition the boundary between `<g>` and "_total" forces:
a trailing "sa" reconstitutes an "sa_" occurrence that the
delete-every-occurrence extraction also removes), the extracted role
name equals `<g>` exactly, and the sibling columns consulted are exactly
`sa_<g>_type` and `sa_<g>_drop_loc`. -/
theorem c10_amended (g : String)
    (h1 : occursIn saChars g.toList = false)
    (h2 : occursIn totalChars g.toList = false)
    (h3 : tailEnd ['s', 'a'] g.toList = false) :
    roleName ("sa_" ++ g ++ "_total") = g ∧
      colTypeName (roleName ("sa_" ++ g ++ "_total")) = "sa_" ++ g ++ "_type" ∧
      colLocName (roleName ("sa_" ++ g ++ "_total")) = "sa_" ++ g ++ "_drop_loc" := by
  have hmain : roleName ("sa_" ++ g ++ "_total") = g := by
    have hdata : ("sa_" ++ g ++ "_total").toList =
        's' :: 'a' :: '_' :: (g.toList ++ totalChars) := by
      show ("sa_" ++ g ++ "_total").data = _
      rw [String.data_append, String.data_append]
      rfl
    unfold roleName
    rw [hdata, delSa_eq_cons3, if_pos ⟨rfl, rfl, rfl⟩, delSa_skip g.toList h1 h3,
      delTotal_strip g.toList h2]
    rfl
  refine ⟨hmain, ?_, ?_⟩ <;> rw [hmain] <;> rfl

/-- Witness for C10: the role x round-trips and its siblings are
`sa_x_type` and `sa_x_drop_loc`. -/
theorem c10_witness :
    roleName ("sa_" ++ "x" ++ "_total") = "x" ∧
      colTypeName (roleName ("sa_" ++ "x" ++ "_total")) = "sa_" ++ "x" ++ "_type" ∧
      colLocName (roleName ("sa_" ++ "x" ++ "_total")) = "sa_" ++ "x" ++ "_drop_loc" :=
  c10_amended "x" (by decide) (by decide) (by decide)

/-- Counterexample to C10 as stated: the group name "sa" contains neither
"sa_" nor "_total" as a substring, yet the extraction on `sa_sa_total`
yields "total", not "sa" — the trailing "sa" of the group joins the "_"
of "_total" into a second "sa_" occurrence that replace deletes. -/
theorem c10_counterexample :
    occursIn saChars "sa".toList = false ∧
      occursIn totalChars "sa".toList = false ∧
      roleName ("sa_" ++ "sa" ++ "_total") = "total" ∧
      roleName ("sa_" ++ "sa" ++ "_total") ≠ "sa" := by decide

/-- The loop body of parse_menu_category, described through the per-entry
outcome: a raising entry aborts, a skipped entry leaves the accumulated
items alone, a parsed entry appends its item. -/
theorem menuStep_eq (items : List MenuItem) (e : List Char) :
    menuStep (some items) e =
      match parseEntry e with
      | none => none
      | some none => some items
      | some (some it) => some (items ++ [it]) := by
  dsimp only [menuStep, parseEntry]
  by_cases ha : e.any (fun ch => ch == '=') = true
  · rw [if_pos ha, if_pos ha]
    match hs : splitOnChar '=' e with
    | [] => rfl
    | [n] => rfl
    | [n, q] =>
      dsimp only
      match hq : pyInt (pyStrip q) with
      | some k => rfl
      | none => rfl
    | n :: q :: x :: rest => rfl
  · rw [if_neg ha, if_neg ha]

/-- A raised exception propagates through the rest of the loop. -/
theorem menu_foldl_none : ∀ es : List (List Char), es.foldl menuStep none = none := by
  intro es
  induction es with
  | nil => rfl
  | cons e es ih => rw [List.foldl_cons]; exact ih

/-- The entry loop, run from any accumulated items, equals the sequenced
per-entry outcomes appended to those items. -/
theorem menu_foldl_eq : ∀ (es : List (List Char)) (items : List MenuItem),
    es.foldl menuStep (some items) = (parseEntries es).map (fun l => items ++ l) := by
  intro es
  induction es with
  | nil => intro items; simp [parseEntries]
  | cons e es ih =>
    intro items
    rw [List.foldl_cons, menuStep_eq]
    match he : parseEntry e with
    | none => simp [parseEntries, he, menu_foldl_none]
    | some none =>
      rw [ih]
      simp only [parseEntries, he]
      match hes : parseEntries es with
      | none => rfl
      | some rest => simp
    | some (some it) =>
      rw [ih]
      simp only [parseEntries, he]
      match hes : parseEntries es with
      | none => rfl
      | some rest => simp

/-- parse_menu_category equals the sequenced per-entry outcomes of the
semicolon chunks of the cell. -/
theorem parse_menu_eq (s : String) :
    parse_menu_category (some s) = parseEntries (splitOnChar ';' s.toList) := by
  dsimp only [parse_menu_category]
  by_cases h : s = ""
  · subst h
    decide
  · rw [if_neg h, menu_foldl_eq]
    match hes : parseEntries (splitOnChar ';' s.toList) with
    | none => rfl
    | some rest => simp

/-- Splitting on a separator that does not occur gives the whole chunk. -/
theorem splitOnChar_no_sep (sep : Char) : ∀ e : List Char,
    e.any (fun ch => ch == sep) = false → splitOnChar sep e = [e] := by
  intro e
  induction e with
  | nil => intro _; rfl
  | cons c rest ih =>
    intro h
    have hc : (c == sep) = false ∧ rest.any (fun ch => ch == sep) = false := by
      simpa [Bool.or_eq_false_iff] using h
    dsimp only [splitOnChar]
    rw [hc.1]
    simp only [Bool.false_eq_true, if_false]
    rw [ih hc.2]

/-- A clean entry neither raises nor is skipped: it parses to its item. -/
theorem parseEntry_good {e : List Char} (h : goodEntry e = true) :
    parseEntry e = some (some (entryItem e)) := by
  unfold goodEntry at h
  match hs : splitOnChar '=' e with
  | [] => rw [hs] at h; simp at h
  | [n] => rw [hs] at h; simp at h
  | n :: q :: x :: rest => rw [hs] at h; simp at h
  | [n, q] =>
    rw [hs] at h
    have hany : e.any (fun ch => ch == '=') = true := by
      by_contra hh
      rw [Bool.not_eq_true] at hh
      have he := splitOnChar_no_sep '=' e hh
      rw [hs] at he
      simp at he
    unfold parseEntry entryItem
    rw [if_pos hany, hs]
    dsimp only
    obtain ⟨k, hk⟩ := Option.isSome_iff_exists.mp h
    rw [hk]
    rfl

/-- When every chunk is clean the sequenced outcomes are exactly the
mapped items, in chunk order. -/
theorem parseEntries_all_good : ∀ es : List (List Char),
    (∀ e ∈ es, goodEntry e = true) →
    parseEntries es = some (es.map entryItem) := by
  intro es
  induction es with
  | nil => intro _; rfl
  | cons e es ih =>
    intro h
    have he := parseEntry_good (h e (List.mem_cons_self e es))
    have hes := ih (fun e' he' => h e' (List.mem_cons_of_mem _ he'))
    dsimp only [parseEntries]
    rw [he, hes]
    rfl

/-- C2 (corrected): a menu cell is split on ';' and each entry is settled
on its own — but not as the claim states it.  An entry with no '=' is
skipped silently (no warning exists anywhere in the parser's output); an
entry with exactly one '=' and an integral quantity contributes one item
with trimmed name; an entry with a non-numeric quantity, or more than
one '=', raises and aborts the whole cell, discarding the other valid
entries.  The first conjunct characterises the loop by the per-entry
outcomes; the second records that a non-string cell yields no items. -/
theorem c2_amended :
    (∀ s : String,
      parse_menu_category (some s) = parseEntries (splitOnChar ';' s.toList)) ∧
    parse_menu_category none = some [] :=
  ⟨parse_menu_eq, rfl⟩

/-- Counterexample to C2 as stated: a non-numeric quantity does not
produce a per-entry warning and is not skipped individually — it raises,
losing the valid "Kue Sus=110" of the same cell (first conjunct), so menu
parsing does raise on some input cells; an entry without '=' is dropped
with no warning surfaced anywhere (second conjunct); and an entry with
two '=' also raises because the source splits on every '=', not the
first (third conjunct). -/
theorem c2_counterexample :
    parse_menu_category (some "Kue Sus=110; Risoles=abc") = none ∧
      parse_menu_category (some "Kue Sus=110; BadEntry") =
        some [MenuItem.mk "Kue Sus" 110] ∧
      parse_menu_category (some "A=1=2") = none := by decide

/-- C7: a cell whose ';'-chunks each carry exactly one '=' and an
integral quantity parses to exactly one MenuItem per chunk, in order,
with name and quantity stripped of surrounding whitespace; in
particular "Kue Sus=110; Risoles=50" gives the two items
("Kue Sus", 110) and ("Risoles", 50). -/
theorem c7_menu_entries :
    (∀ s : String,
      (∀ e ∈ splitOnChar ';' s.toList, goodEntry e = true) →
      parse_menu_category (some s) = some ((splitOnChar ';' s.toList).map entryItem)) ∧
    parse_menu_category (some "Kue Sus=110; Risoles=50") =
      some [MenuItem.mk "Kue Sus" 110, MenuItem.mk "Risoles" 50] := by
  constructor
  · intro s h
    rw [parse_menu_eq, parseEntries_all_good _ h]
  · decide

/-- Witness for C7 at a fresh concrete cell. -/
theorem c7_witness :
    parse_menu_category (some "Nasi=3;Es Teh=4") =
      some ((splitOnChar ';' "Nasi=3;Es Teh=4".toList).map entryItem) :=
  c7_menu_entries.1 "Nasi=3;Es Teh=4" (by decide)

/-- Counterexample to C5 as stated: in the service module at its resolved
path (src/frontend-vite/src/services/bulkUploadApi.ts, the module the
components import), the Preview response declares no `orders` field, the
Submit request declares no `orders` field, and the body built by
submitBulkUpload carries the raw CSV text, not canonical order objects. -/
theorem c5_counterexample :
    ¬ "orders" ∈ bulkUploadPreviewResponseFields ∧
      ¬ "orders" ∈ bulkUploadSubmitRequestFields ∧
      (submitBulkUploadBody "no,institution_name\n1,PLAI BMD").csv_content =
        "no,institution_name\n1,PLAI BMD" := by decide

/-- C5 (corrected): the service at the resolved path sends Submit bodies
of shape csv_content plus confirmed — the raw file content — and its
Preview response carries no orders field; only the updated service
variant of src/unnamed/part_001 matches the claim, carrying the orders
field in the Preview response and sending the previewed canonical order
objects with the confirmation flag. -/
theorem c5_amended :
    (∀ c : String, (submitBulkUploadBody c).csv_content = c ∧
      (submitBulkUploadBody c).confirmed = true) ∧
    ¬ "orders" ∈ bulkUploadPreviewResponseFields ∧
    "orders" ∈ bulkUploadPreviewResponseFieldsV2 ∧
    (∀ os : List CandidateOrder, (submitBulkUploadBodyV2 os).orders = os ∧
      (submitBulkUploadBodyV2 os).confirmed = true) ∧
    "orders" ∈ bulkUploadSubmitRequestFieldsV2 :=
  ⟨fun _ => ⟨rfl, rfl⟩, by decide, by decide, fun _ => ⟨rfl, rfl⟩, by decide⟩

/-- C9: both submit clients hard-code the confirmation flag — every
request body either version of submitBulkUpload can construct has
confirmed equal to true, whatever the caller passes. -/
theorem c9_confirmed_always_true :
    (∀ c : String, (submitBulkUploadBody c).confirmed = true) ∧
    (∀ os : List CandidateOrder, (submitBulkUploadBodyV2 os).confirmed = true) :=
  ⟨fun _ => rfl, fun _ => rfl⟩

/-- Empty aggregation characterises the absence of error rows: each error
row contributes exactly one aggregated message. -/
theorem aggregateValidationErrors_eq_nil (items : List BulkUploadPreviewItem) :
    aggregateValidationErrors items = [] ↔
      ∀ it ∈ items, it.status ≠ RowStatus.error := by
  unfold aggregateValidationErrors
  rw [List.map_eq_nil_iff, List.filter_eq_nil_iff]
  simp [beq_iff_eq]

/-- C8: with the button not already mid-submission, the Submit action of
BulkLoaderPreviewModal.vue is blocked exactly when validation_errors is
non-empty (first conjunct, pure frontend code); and under the backend
aggregation invariant — validation_errors collects one message per
error-status row — the batch is submittable exactly when no row carries
status error, so rows carrying at most warnings never block submission
(second conjunct). -/
theorem c8_submission_ready :
    (∀ pd : BulkUploadPreviewResponse,
      submitDisabled (some pd) false = true ↔ pd.validation_errors ≠ []) ∧
    (∀ pd : BulkUploadPreviewResponse,
      pd.validation_errors = aggregateValidationErrors pd.preview_data →
      (submitDisabled (some pd) false = false ↔
        ∀ it ∈ pd.preview_data, it.status ≠ RowStatus.error)) := by
  have hdis : ∀ pd : BulkUploadPreviewResponse,
      submitDisabled (some pd) false = true ↔ pd.validation_errors ≠ [] := by
    intro pd
    unfold submitDisabled hasErrors
    simp [List.length_pos]
  constructor
  · exact hdis
  · intro pd hagg
    have hfalse : submitDisabled (some pd) false = false ↔
        pd.validation_errors = [] := by
      rw [← Bool.not_eq_true, hdis pd, not_ne_iff]
    rw [hfalse, hagg, aggregateValidationErrors_eq_nil]

/-- A previewed batch whose single row carries only a warning. -/
def previewW : BulkUploadPreviewResponse :=
  { success := true
  , csv_format := "sample_1"
  , parsed_rows := 1
  , preview_data :=
      [{ row_number := 1
       , institution_name := "PLAI BMD"
       , order_date := "2026-01-12"
       , order_type := "REGULAR"
       , total_portion := 320
       , dropping_location_food := "KANTIN_PUSAT"
       , staff_allocation := []
       , menu_details := none
       , special_notes := none
       , status := RowStatus.warning
       , error_message := none }]
  , validation_errors := []
  , validation_warnings := ["Row 1: Large order for this institution"]
  , total_portion := 320 }

/-- Witness for C8: the warning-only batch is submittable. -/
theorem c8_witness : submitDisabled (some previewW) false = false :=
  (c8_submission_ready.2 previewW (by decide)).mpr (by decide)

/-- The transaction inserts exactly one record per order when it
completes. -/
theorem insertSeq_length (t : CandidateOrder → Option Nat) :
    ∀ (os : List CandidateOrder) (ins : List (Nat × CandidateOrder)),
      insertSeq t os = some ins → ins.length = os.length := by
  intro os
  induction os with
  | nil =>
    intro ins h
    simp only [insertSeq, Option.some.injEq] at h
    subst h
    rfl
  | cons o os ih =>
    intro ins h
    dsimp only [insertSeq] at h
    match ht : t o with
    | none => rw [ht] at h; exact absurd h (by simp)
    | some i =>
      rw [ht] at h
      match hrec : insertSeq t os with
      | none => rw [hrec] at h; exact absurd h (by simp)
      | some rest =>
        rw [hrec] at h
        simp only [Option.some.injEq] at h
        subst h
        simp [ih rest hrec]

/-- C3 (spec-modelled Submit orchestrator): one failed re-validation
rejects the whole submission with the database untouched, however many
other orders are valid (first conjunct); with every order valid, a
single insert failure rolls the database back unchanged (second
conjunct) while full success appends exactly one record per order
(third conjunct); and in every case the final database is either exactly
the original or the original extended by one record per submitted order
— an incomplete batch is never persisted (fourth conjunct). -/
theorem c3_submit_atomicity :
    (∀ (v : CandidateOrder → Bool) (t : CandidateOrder → Option Nat)
        (db : List (Nat × CandidateOrder)) (orders : List CandidateOrder)
        (o : CandidateOrder), o ∈ orders → v o = false →
      submitOrchestrator v t db orders = (db, SubmitOutcome.rejected)) ∧
    (∀ v t db orders, orders.all v = true → insertSeq t orders = none →
      submitOrchestrator v t db orders = (db, SubmitOutcome.txRolledBack)) ∧
    (∀ v t db orders ins, orders.all v = true → insertSeq t orders = some ins →
      submitOrchestrator v t db orders =
        (db ++ ins, SubmitOutcome.success (ins.map Prod.fst)) ∧
      ins.length = orders.length) ∧
    (∀ v t db orders, (submitOrchestrator v t db orders).1 = db ∨
      ∃ ins, insertSeq t orders = some ins ∧ ins.length = orders.length ∧
        (submitOrchestrator v t db orders).1 = db ++ ins) := by
  refine ⟨?_, ?_, ?_, ?_⟩
  · intro v t db orders o ho hv
    have hall : ¬ orders.all v = true := fun hall => by
      have := List.all_eq_true.mp hall o ho
      rw [hv] at this
      exact Bool.false_ne_true this
    unfold submitOrchestrator
    rw [if_neg hall]
  · intro v t db orders hall hins
    unfold submitOrchestrator
    rw [if_pos hall, hins]
  · intro v t db orders ins hall hins
    constructor
    · unfold submitOrchestrator
      rw [if_pos hall, hins]
    · exact insertSeq_length t orders ins hins
  · intro v t db orders
    unfold submitOrchestrator
    by_cases hall : orders.all v = true
    · rw [if_pos hall]
      match hins : insertSeq t orders with
      | none => exact Or.inl rfl
      | some ins =>
        exact Or.inr ⟨ins, rfl, insertSeq_length t orders ins hins, rfl⟩
    · rw [if_neg hall]
      exact Or.inl rfl

/-- The re-validation run at Submit time in the witness scenario. -/
def validW : CandidateOrder → Bool := fun o => decide (0 < o.declared_total_portion)

/-- A storage stub that accepts every insert. -/
def insertW : CandidateOrder → Option Nat := fun o => some o.row_number

/-- An individually valid order. -/
def orderOkW : CandidateOrder :=
  { row_number := 1
  , institution_name := "PLAI BMD"
  , institution_id := some 1
  , order_date := "2026-01-15"
  , declared_total_portion := 320
  , drop_location := "KANTIN_PUSAT"
  , allocations := [("dosen", AllocationRecord.mk 20 (CellVal.str "Box") (CellVal.str "Pantry"))]
  , menu := [("snack", [MenuItem.mk "Kue Sus" 110])]
  , status := RowStatus.ok
  , messages := [] }

/-- An order that fails re-validation. -/
def orderBadW : CandidateOrder :=
  { row_number := 2
  , institution_name := "SMP Budi Mulia"
  , institution_id := none
  , order_date := "2026-02-07"
  , declared_total_portion := 0
  , drop_location := "GEDUNG_B"
  , allocations := []
  , menu := []
  , status := RowStatus.error
  , messages := ["institution not found"] }

/-- Witness for C3: one bad order rejects the batch with zero inserts
even though the other order is valid. -/
theorem c3_witness :
    submitOrchestrator validW insertW [] [orderOkW, orderBadW] =
      ([], SubmitOutcome.rejected) :=
  c3_submit_atomicity.1 validW insertW [] [orderOkW, orderBadW] orderBadW
    (by decide) (by decide)

/-- Row transformation keeps the row count. -/
theorem transformAll_length (t : Nat → Row → CandidateOrder) :
    ∀ (i : Nat) (rs : List Row), (transformAll t i rs).length = rs.length := by
  intro i rs
  induction rs generalizing i with
  | nil => rfl
  | cons r rs ih => simp [transformAll, ih]

/-- The k-th transformed order is the transform of the k-th raw row. -/
theorem transformAll_get (t : Nat → Row → CandidateOrder) :
    ∀ (rs : List Row) (i k : Nat),
      (transformAll t i rs)[k]? = (rs[k]?).map (fun r => t (i + k) r) := by
  intro rs
  induction rs with
  | nil => intro i k; simp [transformAll]
  | cons r rs ih =>
    intro i k
    cases k with
    | zero => simp [transformAll]
    | succ k =>
      simp only [transformAll, List.getElem?_cons_succ, ih (i + 1) k]
      have : i + 1 + k = i + (k + 1) := by omega
      rw [this]

/-- C4 (spec-modelled Preview orchestrator): with the mandatory metadata
columns present, Preview yields a BatchResult holding exactly one
CandidateOrder per data row — the k-th order being whatever the total
row transformer produced for the k-th row, so defective rows come back
marked rather than dropped (first conjunct); Preview never touches the
storage state (second conjunct); and the only whole-call failures are an
unreadable or empty file and the whole-file schema error (third and
fourth conjuncts). -/
theorem c4_preview_per_row :
    (∀ (t : Nat → Row → CandidateOrder) (header : List String) (rows : List Row)
        (db : List (Nat × CandidateOrder)),
      matchSchemaOk header = true →
      ∃ result : BatchResult,
        previewOrchestrator t (some (header, rows)) db = (db, PreviewOutcome.ok result) ∧
        result.parsed_row_count = rows.length ∧
        result.orders.length = rows.length ∧
        ∀ k : Nat, result.orders[k]? = (rows[k]?).map (fun r => t (k + 1) r)) ∧
    (∀ t file db, (previewOrchestrator t file db).1 = db) ∧
    (∀ t db, previewOrchestrator t none db = (db, PreviewOutcome.fileError)) ∧
    (∀ t header rows db, matchSchemaOk header = false →
      previewOrchestrator t (some (header, rows)) db = (db, PreviewOutcome.schemaError)) := by
  refine ⟨?_, ?_, ?_, ?_⟩
  · intro t header rows db h
    dsimp only [previewOrchestrator]
    rw [if_pos h]
    refine ⟨_, rfl, rfl, transformAll_length t 1 rows, ?_⟩
    intro k
    rw [transformAll_get t rows 1 k]
    have : 1 + k = k + 1 := Nat.add_comm 1 k
    rw [this]
  · intro t file db
    match file with
    | none => rfl
    | some (header, rows) =>
      dsimp only [previewOrchestrator]
      by_cases h : matchSchemaOk header = true
      · rw [if_pos h]
      · rw [if_neg h]
  · intro t db; rfl
  · intro t header rows db h
    dsimp only [previewOrchestrator]
    rw [if_neg (by simp [h])]

/-- The row transformer of the C4 witness: row 5 carries a hard error,
every other row is clean. -/
def transformW : Nat → Row → CandidateOrder := fun i _ =>
  { row_number := i
  , institution_name := "PLAI BMD"
  , institution_id := some 1
  , order_date := "2026-01-15"
  , declared_total_portion := 10
  , drop_location := "KANTIN_PUSAT"
  , allocations := []
  , menu := []
  , status := if i = 5 then RowStatus.error else RowStatus.ok
  , messages := if i = 5 then ["invalid date"] else [] }

/-- Ten raw data rows. -/
def rowsW : List Row := List.replicate 10 []

/-- Witness for C4: the ten-row upload with a hard error in row 5 still
previews to exactly ten candidate orders, row 5 included. -/
theorem c4_witness :
    rowsW.length = 10 ∧
      ∃ result : BatchResult,
        previewOrchestrator transformW (some (mandatoryColumns, rowsW)) [] =
          ([], PreviewOutcome.ok result) ∧
        result.parsed_row_count = rowsW.length ∧
        result.orders.length = rowsW.length ∧
        ∀ k : Nat, result.orders[k]? = (rowsW[k]?).map (fun r => transformW (k + 1) r) :=
  ⟨by decide,
    c4_preview_per_row.1 transformW mandatoryColumns rowsW [] (by decide)⟩
